import Mathlib

/-!
Verification of the sort/select logic of the `DataTable` component and the
render logic of the `InputField` component
(src/Frontend-Assignment-HY/src/components/DataTable.tsx and the unnamed
component file).

The TypeScript code is shallowly embedded: each React event handler becomes a
pure function from the previous state (the argument of the `setX(prev => ...)`
updater) to the new state; the JavaScript `Array.prototype.sort` call on a
spread copy is embedded as `List.mergeSort` with the source's comparator
(ECMAScript 2019 and later require `Array.prototype.sort` to be stable, and a
stable sort with respect to a total preorder is unique, so any conforming
engine produces exactly this list).
-/

/-- The `SortOrder` type of the source: 'asc' | 'desc' | null.  The two
non-null constructors; `null` is `Option.none` at use sites. -/
inductive SortOrder : Type where
  | asc : SortOrder
  | desc : SortOrder
deriving DecidableEq, Repr

/-- The pair of sort-related `useState` hooks of `DataTable`:
`sortKey : keyof T | null` and `sortOrder : SortOrder`. -/
structure SortState (K : Type) where
  sortKey : Option K
  sortOrder : Option SortOrder
deriving DecidableEq, Repr

/-- Embedding of `handleSort` (DataTable.tsx lines 35-42):
if `sortKey === key` then `setSortOrder(prev => prev === 'asc' ? 'desc' : 'asc')`,
else `setSortKey(key); setSortOrder('asc')`. -/
def handleSort {K : Type} [DecidableEq K] (key : K) (s : SortState K) : SortState K :=
  if s.sortKey = some key then
    let newOrder := if s.sortOrder = some SortOrder.asc then SortOrder.desc else SortOrder.asc
    { s with sortOrder := some newOrder }
  else
    { sortKey := some key, sortOrder := some SortOrder.asc }

/-- The comparator passed to `.sort` in `sortedData` (DataTable.tsx lines 46-52):
`valA < valB` gives −1 for ascending and 1 for descending, `valA > valB` gives
1 for ascending and −1 for descending, otherwise 0.  `f` is the field access
`a[sortKey]`. -/
def compareFn {T V : Type} [LinearOrder V] (o : SortOrder) (f : T → V) (a b : T) : Int :=
  if f a < f b then (if o = SortOrder.asc then -1 else 1)
  else if f a > f b then (if o = SortOrder.asc then 1 else -1)
  else 0

/-- The "should come no later than" relation induced by the comparator: JS sorts
`a` at or before `b` exactly when the comparator is non-positive on `(a, b)`. -/
def sortLe {T V : Type} [LinearOrder V] (o : SortOrder) (f : T → V) (a b : T) : Bool :=
  decide (compareFn o f a b ≤ 0)

/-- Embedding of the `sortedData` memo (DataTable.tsx lines 44-54):
`if (!sortKey || !sortOrder) return data;` then sort a spread copy of `data`
with the comparator.  Records are embedded as values indexable by a key type
`K` through `get` (the `a[sortKey]` access), field values living in a linearly
ordered type `V`. -/
def sortedData {T K V : Type} [LinearOrder V] (get : T → K → V)
    (sortKey : Option K) (sortOrder : Option SortOrder) (data : List T) : List T :=
  match sortKey, sortOrder with
  | some k, some o => data.mergeSort (sortLe o (fun t => get t k))
  | _, _ => data

/-- Result of a selection handler: the value stored by `setSelectedRows` and the
argument passed to `onRowSelect` (the source binds one `newSelection` local and
uses it for both). -/
structure SelectionUpdate (T : Type) where
  newSelection : List T
  notified : List T
deriving DecidableEq, Repr

/-- Embedding of `handleSelectRow` (DataTable.tsx lines 56-67): membership test
by `r[rowKey] === row[rowKey]`, removal by `filter` on `!==`, insertion by
`[...prev, row]`; `onRowSelect(newSelection)` is called with the same list. -/
def handleSelectRow {T K : Type} [DecidableEq K] (rowKey : T → K) (row : T)
    (prev : List T) : SelectionUpdate T :=
  let isSelected := prev.any (fun r => decide (rowKey r = rowKey row))
  let newSelection :=
    if isSelected then prev.filter (fun r => !decide (rowKey r = rowKey row))
    else prev ++ [row]
  { newSelection := newSelection, notified := newSelection }

/-- Embedding of `handleSelectAll` (DataTable.tsx lines 69-77):
`newSelection = prev.length === data.length ? [] : [...data]`, and
`onRowSelect(newSelection)`. -/
def handleSelectAll {T : Type} (data prev : List T) : SelectionUpdate T :=
  let newSelection := if prev.length = data.length then ([] : List T) else data
  { newSelection := newSelection, notified := newSelection }

/-- The three mutually exclusive table bodies of the render. -/
inductive RenderState : Type where
  | loadingState : RenderState
  | emptyState : RenderState
  | populated : RenderState
deriving DecidableEq, Repr

/-- Embedding of the body choice in the `DataTable` return (lines 219-225):
`loading ? <LoadingState/> : data.length > 0 ? <TableBody/> : <EmptyState/>`.
`selectable` is a prop of the component but is not consulted here. -/
def renderBody {T : Type} (loading : Bool) (data : List T) (selectable : Bool) : RenderState :=
  if loading then RenderState.loadingState
  else if data.length > 0 then RenderState.populated
  else RenderState.emptyState

/-- The full `DataTable` hook state, together with the `data` prop, for the
frame-effect claim: no handler touches the host-supplied `data`. -/
structure TableState (T K : Type) where
  data : List T
  sortKey : Option K
  sortOrder : Option SortOrder
  selectedRows : List T

/-- The user interactions that reach the three handlers. -/
inductive TableAction (T K : Type) : Type where
  | sortClick : K → TableAction T K
  | rowToggle : T → TableAction T K
  | selectAllToggle : TableAction T K

/-- One synchronous event-handler step of the component: each action updates
exactly the hook state its handler writes. -/
def tableStep {T K : Type} [DecidableEq K] (rowKey : T → K) :
    TableAction T K → TableState T K → TableState T K
  | TableAction.sortClick k, s =>
      let s2 := handleSort k ⟨s.sortKey, s.sortOrder⟩
      { s with sortKey := s2.sortKey, sortOrder := s2.sortOrder }
  | TableAction.rowToggle row, s =>
      { s with selectedRows := (handleSelectRow rowKey row s.selectedRows).newSelection }
  | TableAction.selectAllToggle, s =>
      { s with selectedRows := (handleSelectAll s.data s.selectedRows).newSelection }

/-- Claim C1: a click on a header that is not the active sort column sets the
state to (that column, ascending); a click on the active column flips the
direction; after any click the state is never "none"; three clicks starting
from a non-active column give ascending, descending, ascending. -/
theorem handleSort_cycles {K : Type} [DecidableEq K] (s : SortState K) (k : K) :
    (s.sortKey ≠ some k →
      handleSort k s = ⟨some k, some SortOrder.asc⟩) ∧
    (s.sortKey = some k → s.sortOrder = some SortOrder.asc →
      handleSort k s = ⟨some k, some SortOrder.desc⟩) ∧
    (s.sortKey = some k → s.sortOrder = some SortOrder.desc →
      handleSort k s = ⟨some k, some SortOrder.asc⟩) ∧
    ((handleSort k s).sortKey ≠ none ∧ (handleSort k s).sortOrder ≠ none) ∧
    (s.sortKey ≠ some k →
      (handleSort k s).sortOrder = some SortOrder.asc ∧
      (handleSort k (handleSort k s)).sortOrder = some SortOrder.desc ∧
      (handleSort k (handleSort k (handleSort k s))).sortOrder = some SortOrder.asc) := by
  refine ⟨fun h => ?_, fun h1 h2 => ?_, fun h1 h2 => ?_, ?_, fun h => ?_⟩
  · simp [handleSort, h]
  · simp [handleSort, h1, h2]
  · cases s with
    | mk sk so => simp_all [handleSort]
  · constructor
    · unfold handleSort
      split <;> simp_all
    · unfold handleSort
      split <;> simp
  · have h1 : handleSort k s = ⟨some k, some SortOrder.asc⟩ := by simp [handleSort, h]
    rw [h1]
    simp [handleSort]

/-- Witness for C1 at a concrete state: the initial state (no sort) with key 0. -/
theorem handleSort_cycles_witness :
    handleSort 0 (⟨none, none⟩ : SortState Nat) = ⟨some 0, some SortOrder.asc⟩ ∧
    (handleSort 0 (handleSort 0 (⟨none, none⟩ : SortState Nat))).sortOrder
      = some SortOrder.desc := by
  refine ⟨(handleSort_cycles ⟨none, none⟩ 0).1 (by decide), ?_⟩
  exact ((handleSort_cycles ⟨none, none⟩ 0).2.2.2.2 (by decide)).2.1

/-- A concrete record shape in the spirit of the demo's `User` rows, used to
evaluate the generic theorems at concrete inputs. -/
structure URow : Type where
  id : Nat
  name : String
deriving DecidableEq, Repr

/-- Claim C4: the table body is exactly one of three states, chosen by
priority: loading wins even over non-empty data; otherwise empty data gives the
empty state, independently of the selectable flag; otherwise the populated
body. -/
theorem renderBody_priority {T : Type} (loading : Bool) (data : List T) (selectable : Bool) :
    (loading = true → renderBody loading data selectable = RenderState.loadingState) ∧
    (loading = false → data = [] → renderBody loading data selectable = RenderState.emptyState) ∧
    (loading = false → data ≠ [] → renderBody loading data selectable = RenderState.populated) ∧
    (∀ b : Bool, renderBody loading data selectable = renderBody loading data b) := by
  refine ⟨fun h => ?_, fun h h0 => ?_, fun h h0 => ?_, fun b => rfl⟩
  · simp [renderBody, h]
  · simp [renderBody, h, h0]
  · have hlen : 0 < data.length := List.length_pos.mpr h0
    simp [renderBody, h, hlen]

/-- Witness for C4: loading with non-empty data shows the loading state, and
empty non-loading data shows the empty state with either selectable flag. -/
theorem renderBody_priority_witness :
    renderBody true [(⟨1, "Jane"⟩ : URow)] false = RenderState.loadingState ∧
    renderBody false ([] : List URow) true = RenderState.emptyState := by
  refine ⟨(renderBody_priority true [⟨1, "Jane"⟩] false).1 rfl, ?_⟩
  exact (renderBody_priority false ([] : List URow) true).2.1 rfl rfl

/-- Claim C7: with empty data, select-all always produces the empty selection
and always notifies the host with the empty list, whatever the previous
selection was. -/
theorem handleSelectAll_empty_data {T : Type} (prev : List T) :
    (handleSelectAll ([] : List T) prev).newSelection = [] ∧
    (handleSelectAll ([] : List T) prev).notified = [] := by
  unfold handleSelectAll
  constructor <;> (dsimp only; split <;> rfl)

/-- Counterexample for C3: with data `[{id 1}]` and a stale selection
`[{id 2}]` of equal length, select-all clears the selection even though the
current selection does not select all of the data, where the claim requires it
to select all of the data. -/
theorem handleSelectAll_not_selectsAll_check :
    (¬ ∀ x ∈ ([⟨1, "Jane"⟩] : List URow), ∃ y ∈ ([⟨2, "Cody"⟩] : List URow), y.id = x.id) ∧
    (handleSelectAll ([⟨1, "Jane"⟩] : List URow) [⟨2, "Cody"⟩]).newSelection = [] ∧
    (handleSelectAll ([⟨1, "Jane"⟩] : List URow) [⟨2, "Cody"⟩]).newSelection
      ≠ [(⟨1, "Jane"⟩ : URow)] := by
  refine ⟨?_, rfl, ?_⟩ <;> decide

/-- Claim C3 as amended: select-all replaces the selection with either the full
data sequence or the empty selection; it clears exactly when the previous
selection's length equals the data's length, and selects all of the data
otherwise; the callback receives the new selection. -/
theorem handleSelectAll_toggle {T : Type} (data prev : List T) :
    ((handleSelectAll data prev).newSelection = [] ∨
      (handleSelectAll data prev).newSelection = data) ∧
    (prev.length = data.length → (handleSelectAll data prev).newSelection = []) ∧
    (prev.length ≠ data.length → (handleSelectAll data prev).newSelection = data) ∧
    (handleSelectAll data prev).notified = (handleSelectAll data prev).newSelection := by
  unfold handleSelectAll
  refine ⟨?_, fun h => ?_, fun h => ?_, ?_⟩
  · dsimp only
    split
    · exact Or.inl rfl
    · exact Or.inr rfl
  · simp [h]
  · simp [h]
  · rfl

/-- Witness for C3 (amended): one row, empty previous selection: lengths differ
so select-all selects the whole data, and a full-length previous selection is
cleared. -/
theorem handleSelectAll_toggle_witness :
    (handleSelectAll ([⟨1, "Jane"⟩] : List URow) []).newSelection = [⟨1, "Jane"⟩] ∧
    (handleSelectAll ([⟨1, "Jane"⟩] : List URow) [⟨2, "Cody"⟩]).newSelection = [] := by
  refine ⟨(handleSelectAll_toggle ([⟨1, "Jane"⟩] : List URow) []).2.2.1 (by decide), ?_⟩
  exact (handleSelectAll_toggle [(⟨1, "Jane"⟩ : URow)] [⟨2, "Cody"⟩]).2.1 (by decide)

/-- Splitting a list by a predicate preserves total length. -/
theorem length_filter_not_add {T : Type} (p : T → Bool) :
    ∀ l : List T, (l.filter (fun x => !p x)).length + (l.filter p).length = l.length := by
  intro l
  induction l with
  | nil => rfl
  | cons a t ih =>
    cases hpa : p a <;> simp [List.filter_cons, hpa] <;> omega

/-- When the row keys of a list are pairwise distinct, filtering the list for
the key of one of its members returns exactly that member. -/
theorem filter_key_eq_of_nodup {T K : Type} [DecidableEq K] (rk : T → K) (r : T) :
    ∀ l : List T, (l.map rk).Nodup → r ∈ l →
      l.filter (fun x => decide (rk x = rk r)) = [r] := by
  intro l
  induction l with
  | nil => intro _ hm; cases hm
  | cons a t ih =>
    intro hnd hm
    obtain ⟨hnd1, hnd2⟩ : (∀ x ∈ t, ¬ rk x = rk a) ∧ (t.map rk).Nodup := by
      simpa using hnd
    by_cases hak : rk a = rk r
    · have har : a = r := by
        rcases List.mem_cons.mp hm with h | h
        · exact h.symm
        · exact absurd hak.symm (hnd1 r h)
      have htail : t.filter (fun x => decide (rk x = rk r)) = [] := by
        apply List.filter_eq_nil_iff.mpr
        intro x hx
        simp only [decide_eq_true_eq]
        exact fun hxr => hnd1 x hx (hxr.trans hak.symm)
      simp [List.filter_cons, hak, htail, har]
    · have hm2 : r ∈ t := by
        rcases List.mem_cons.mp hm with h | h
        · exact absurd (show rk a = rk r by rw [h]) hak
        · exact h
      simp [List.filter_cons, hak, ih hnd2 hm2]

/-- Claim C5: with pairwise-distinct row keys, select-all (from a selection of
different length) selects all of the data, and then toggling row `r` leaves
exactly the records whose key differs from `r`'s key — one fewer than the data
— in data order, and the callback receives that new selection. -/
theorem selectAll_then_toggle {T K : Type} [DecidableEq K] (rk : T → K)
    (data prev : List T) (r : T)
    (hnd : (data.map rk).Nodup) (hr : r ∈ data)
    (hlen : prev.length ≠ data.length) :
    (handleSelectAll data prev).newSelection = data ∧
    (handleSelectRow rk r ((handleSelectAll data prev).newSelection)).newSelection
      = data.filter (fun x => !decide (rk x = rk r)) ∧
    (handleSelectRow rk r ((handleSelectAll data prev).newSelection)).newSelection.length + 1
      = data.length ∧
    (handleSelectRow rk r ((handleSelectAll data prev).newSelection)).notified
      = (handleSelectRow rk r ((handleSelectAll data prev).newSelection)).newSelection := by
  have h1 : (handleSelectAll data prev).newSelection = data := by
    unfold handleSelectAll
    simp [hlen]
  have hany : data.any (fun x => decide (rk x = rk r)) = true :=
    List.any_eq_true.mpr ⟨r, hr, by simp⟩
  have h2 : (handleSelectRow rk r data).newSelection
      = data.filter (fun x => !decide (rk x = rk r)) := by
    unfold handleSelectRow
    simp [hany]
  have h3 : (handleSelectRow rk r data).newSelection.length + 1 = data.length := by
    rw [h2]
    have hsplit := length_filter_not_add (fun x => decide (rk x = rk r)) data
    rw [filter_key_eq_of_nodup rk r data hnd hr] at hsplit
    simpa using hsplit
  refine ⟨h1, ?_, ?_, ?_⟩
  · rw [h1]; exact h2
  · rw [h1]; exact h3
  · rfl

/-- Witness for C5: two distinct-id rows, empty prior selection, toggling the
first row after select-all leaves exactly the second row. -/
theorem selectAll_then_toggle_witness :
    (handleSelectRow URow.id (⟨1, "Jane"⟩ : URow)
        ((handleSelectAll ([⟨1, "Jane"⟩, ⟨2, "Cody"⟩] : List URow) []).newSelection)).newSelection
      = [⟨2, "Cody"⟩] ∧
    (handleSelectRow URow.id (⟨1, "Jane"⟩ : URow)
        ((handleSelectAll ([⟨1, "Jane"⟩, ⟨2, "Cody"⟩] : List URow) []).newSelection)
      ).newSelection.length + 1 = 2 := by
  have h := selectAll_then_toggle URow.id ([⟨1, "Jane"⟩, ⟨2, "Cody"⟩] : List URow) [] ⟨1, "Jane"⟩
    (by decide) (by decide) (by decide)
  exact ⟨by rw [h.2.1]; decide, h.2.2.1⟩

/-- Claim C10: row toggling is a key-based involution: toggling a row whose key
is absent from the selection and then toggling it again restores the selection
exactly; toggling a row whose key is present removes every entry with that key,
keeping the order of the rest. -/
theorem toggle_involution {T K : Type} [DecidableEq K] (rk : T → K) (S : List T) (r : T) :
    ((∀ x ∈ S, rk x ≠ rk r) →
      (handleSelectRow rk r ((handleSelectRow rk r S).newSelection)).newSelection = S) ∧
    ((∃ x ∈ S, rk x = rk r) →
      (handleSelectRow rk r S).newSelection
        = S.filter (fun x => !decide (rk x = rk r))) := by
  constructor
  · intro h
    have hany : S.any (fun x => decide (rk x = rk r)) = false := by
      apply List.any_eq_false.mpr
      intro x hx
      simpa using h x hx
    have h1 : (handleSelectRow rk r S).newSelection = S ++ [r] := by
      unfold handleSelectRow
      simp [hany]
    rw [h1]
    have hany2 : (S ++ [r]).any (fun x => decide (rk x = rk r)) = true :=
      List.any_eq_true.mpr ⟨r, by simp, by simp⟩
    have hS : S.filter (fun x => !decide (rk x = rk r)) = S :=
      List.filter_eq_self.mpr (fun x hx => by simpa using h x hx)
    unfold handleSelectRow
    simp [hany2, List.filter_append, hS]
  · intro h
    rcases h with ⟨x, hx, hxr⟩
    have hany : S.any (fun x => decide (rk x = rk r)) = true :=
      List.any_eq_true.mpr ⟨x, hx, by simpa using hxr⟩
    unfold handleSelectRow
    simp [hany]

/-- Witness for C10: selection `[{id 2}]` does not carry key 1, so toggling
`{id 1}` twice restores it; selection `[{id 1, Jane}]` carries key 1, so one
toggle of `{id 1, John}` empties it. -/
theorem toggle_involution_witness :
    (handleSelectRow URow.id (⟨1, "Jane"⟩ : URow)
        ((handleSelectRow URow.id (⟨1, "Jane"⟩ : URow) [⟨2, "Cody"⟩]).newSelection)).newSelection
      = [⟨2, "Cody"⟩] ∧
    (handleSelectRow URow.id (⟨1, "John"⟩ : URow) [(⟨1, "Jane"⟩ : URow)]).newSelection
      = [] := by
  constructor
  · exact (toggle_involution URow.id ([⟨2, "Cody"⟩] : List URow) ⟨1, "Jane"⟩).1 (by decide)
  · have h := (toggle_involution URow.id ([⟨1, "Jane"⟩] : List URow) ⟨1, "John"⟩).2
      ⟨⟨1, "Jane"⟩, by decide, by decide⟩
    rw [h]; decide

/-- The comparator is non-positive on `(a, b)` iff the ascending order allows
`a` at or before `b`. -/
theorem sortLe_asc_iff {T V : Type} [LinearOrder V] (f : T → V) (a b : T) :
    sortLe SortOrder.asc f a b = true ↔ f a ≤ f b := by
  unfold sortLe compareFn
  rcases lt_trichotomy (f a) (f b) with h | h | h
  · simp [h, h.le, h.not_lt]
  · simp [h, lt_irrefl]
  · simp [h, h.not_lt, not_le.mpr h, gt_iff_lt]

/-- The comparator is non-positive on `(a, b)` iff the descending order allows
`a` at or before `b`. -/
theorem sortLe_desc_iff {T V : Type} [LinearOrder V] (f : T → V) (a b : T) :
    sortLe SortOrder.desc f a b = true ↔ f b ≤ f a := by
  unfold sortLe compareFn
  rcases lt_trichotomy (f a) (f b) with h | h | h
  · simp [h, h.not_lt, not_le.mpr h, gt_iff_lt]
  · simp [h, lt_irrefl]
  · simp [h, h.le, h.not_lt, gt_iff_lt]

/-- The comparator relation is transitive, in each direction. -/
theorem sortLe_trans {T V : Type} [LinearOrder V] (o : SortOrder) (f : T → V) :
    ∀ a b c : T, sortLe o f a b → sortLe o f b c → sortLe o f a c := by
  intro a b c hab hbc
  cases o
  · exact (sortLe_asc_iff f a c).mpr
      (le_trans ((sortLe_asc_iff f a b).mp hab) ((sortLe_asc_iff f b c).mp hbc))
  · exact (sortLe_desc_iff f a c).mpr
      (le_trans ((sortLe_desc_iff f b c).mp hbc) ((sortLe_desc_iff f a b).mp hab))

/-- The comparator relation is total, in each direction. -/
theorem sortLe_total {T V : Type} [LinearOrder V] (o : SortOrder) (f : T → V) :
    ∀ a b : T, sortLe o f a b || sortLe o f b a := by
  intro a b
  cases o
  · rcases le_total (f a) (f b) with h | h
    · simp [(sortLe_asc_iff f a b).mpr h]
    · simp [(sortLe_asc_iff f b a).mpr h]
  · rcases le_total (f a) (f b) with h | h
    · simp [(sortLe_desc_iff f b a).mpr h]
    · simp [(sortLe_desc_iff f a b).mpr h]

/-- Claim C2: with an active sort column, the displayed sequence is a
permutation of the data ordered by the column's values — non-decreasing when
ascending, non-increasing when descending — and the sort is stable: two records
whose column values are neither less-than nor greater-than each other keep
their relative order from the data, in either direction. -/
theorem sortedData_sorted_stable {T K V : Type} [LinearOrder V]
    (get : T → K → V) (k : K) (o : SortOrder) (data : List T) :
    (sortedData get (some k) (some o) data).Perm data ∧
    (o = SortOrder.asc →
      (sortedData get (some k) (some o) data).Pairwise (fun a b => get a k ≤ get b k)) ∧
    (o = SortOrder.desc →
      (sortedData get (some k) (some o) data).Pairwise (fun a b => get b k ≤ get a k)) ∧
    (∀ a b : T, ¬ get a k < get b k → ¬ get b k < get a k →
      List.Sublist [a, b] data →
      List.Sublist [a, b] (sortedData get (some k) (some o) data)) := by
  refine ⟨?_, fun ho => ?_, fun ho => ?_, fun a b h1 h2 hsub => ?_⟩
  · exact List.mergeSort_perm data _
  · subst ho
    have hp := List.sorted_mergeSort (sortLe_trans SortOrder.asc (fun t => get t k))
      (sortLe_total SortOrder.asc (fun t => get t k)) data
    exact List.Pairwise.imp (fun hab => (sortLe_asc_iff (fun t => get t k) _ _).mp hab) hp
  · subst ho
    have hp := List.sorted_mergeSort (sortLe_trans SortOrder.desc (fun t => get t k))
      (sortLe_total SortOrder.desc (fun t => get t k)) data
    exact List.Pairwise.imp (fun hab => (sortLe_desc_iff (fun t => get t k) _ _).mp hab) hp
  · have hab : sortLe o (fun t => get t k) a b = true := by
      cases o
      · exact (sortLe_asc_iff (fun t => get t k) a b).mpr (not_lt.mp h2)
      · exact (sortLe_desc_iff (fun t => get t k) a b).mpr (not_lt.mp h1)
    exact List.pair_sublist_mergeSort (sortLe_trans o (fun t => get t k))
      (sortLe_total o (fun t => get t k)) hab hsub

/-- A concrete record for evaluating the sort theorems: a pair indexed by key 0
(first component) and any other key (second component). -/
def getPair : Nat × Nat → Nat → Nat :=
  fun t k => if k = 0 then t.1 else t.2

/-- Witness for C2: sorting pairs by the second component ascending yields a
non-decreasing sequence, and two records tied on the sort column stay in their
original relative order. -/
theorem sortedData_sorted_stable_witness :
    (sortedData getPair (some 1) (some SortOrder.asc) [(1, 5), (2, 3)]).Pairwise
      (fun a b => getPair a 1 ≤ getPair b 1) ∧
    List.Sublist [(1, 4), (2, 4)]
      (sortedData getPair (some 1) (some SortOrder.asc) [(1, 4), (2, 4)]) := by
  constructor
  · exact (sortedData_sorted_stable getPair 1 SortOrder.asc [(1, 5), (2, 3)]).2.1 rfl
  · exact (sortedData_sorted_stable getPair 1 SortOrder.asc [(1, 4), (2, 4)]).2.2.2
      (1, 4) (2, 4) (by decide) (by decide) (List.Sublist.refl _)

/-- Claim C6: no table operation changes the host-supplied data: every
event-handler step preserves the `data` prop, and the displayed (sorted)
sequence is a fresh reordering — a permutation — of the same records. -/
theorem tableStep_preserves_data {T K V : Type} [LinearOrder V] [DecidableEq K]
    (get : T → K → V) (rowKey : T → K) (act : TableAction T K) (s : TableState T K) :
    (tableStep rowKey act s).data = s.data ∧
    (sortedData get s.sortKey s.sortOrder s.data).Perm s.data := by
  constructor
  · cases act <;> rfl
  · cases hk : s.sortKey with
    | none => exact List.Perm.refl _
    | some k =>
      cases ho : s.sortOrder with
      | none => exact List.Perm.refl _
      | some o => exact List.mergeSort_perm s.data _

/-- The props of `InputField` that its render logic consults.  Optional string
props are `Option String`; an absent prop is `none`. -/
structure InputFieldProps : Type where
  value : String
  type : String
  disabled : Bool
  invalid : Bool
  loading : Bool
  helperText : Option String
  errorMessage : Option String
deriving DecidableEq, Repr

/-- JavaScript truthiness of an optional string prop: `undefined` and the empty
string are falsy, any other string is truthy. -/
def truthy : Option String → Bool
  | none => false
  | some s => decide (¬ s = "")

/-- The attributes of the rendered control that the claims talk about: the
input's `type` and `value` and `disabled` attributes, the validation message
paragraph below the input (if any), and the leading spinner slot. -/
structure RenderedInput : Type where
  typeAttr : String
  valueAttr : String
  disabledAttr : Bool
  message : Option String
  leftSpinner : Bool
deriving DecidableEq, Repr

/-- Embedding of the `InputField` render (component file lines 96-142):
the input's type is `isPassword && showPassword ? 'text' : type`, its disabled
attribute is `disabled || loading`, its value is the `value` prop; the spinner
occupies the left icon slot iff `loading`; the paragraph below is
`invalid && errorMessage ? errorMessage : helperText ? helperText : null`. -/
def renderInput (p : InputFieldProps) (showPassword : Bool) : RenderedInput :=
  let isPassword := decide (p.type = "password")
  { typeAttr := if isPassword && showPassword then "text" else p.type
    valueAttr := p.value
    disabledAttr := p.disabled || p.loading
    message :=
      if p.invalid && truthy p.errorMessage then p.errorMessage
      else if truthy p.helperText then p.helperText
      else none
    leftSpinner := p.loading }

/-- Embedding of the reveal toggle's click handler:
`setShowPassword(!showPassword)`. -/
def toggleShow (showPassword : Bool) : Bool := !showPassword

/-- Claim C8: for a password field, the control is plain text while reveal is
active and masked while it is inactive; the rendered value always equals the
`value` prop, and toggling reveal twice restores the reveal state — the reveal
state never alters the value. -/
theorem password_reveal (p : InputFieldProps) (h : p.type = "password") :
    (renderInput p true).typeAttr = "text" ∧
    (renderInput p false).typeAttr = "password" ∧
    (∀ b : Bool, (renderInput p b).valueAttr = p.value) ∧
    (∀ b : Bool, toggleShow (toggleShow b) = b) := by
  refine ⟨?_, ?_, fun b => rfl, fun b => by cases b <;> rfl⟩
  · simp [renderInput, h]
  · simp [renderInput, h]

/-- Witness for C8: a concrete password field with value "secret": revealed it
renders as text, hidden it renders masked, the value stays "secret". -/
theorem password_reveal_witness :
    (renderInput ⟨"secret", "password", false, false, false, none, none⟩ true).typeAttr
      = "text" ∧
    (renderInput ⟨"secret", "password", false, false, false, none, none⟩ false).typeAttr
      = "password" ∧
    (renderInput ⟨"secret", "password", false, false, false, none, none⟩
      (toggleShow (toggleShow false))).valueAttr = "secret" := by
  refine ⟨(password_reveal ⟨"secret", "password", false, false, false, none, none⟩ rfl).1,
    (password_reveal ⟨"secret", "password", false, false, false, none, none⟩ rfl).2.1, ?_⟩
  exact (password_reveal ⟨"secret", "password", false, false, false, none, none⟩ rfl).2.2.1 _

/-- Claim C9: the message below the input is the error message when the invalid
flag is set and a (truthy) error message is supplied; otherwise the helper text
when supplied; otherwise nothing.  A loading field is rendered disabled
regardless of the disabled flag. -/
theorem message_precedence (p : InputFieldProps) (b : Bool) :
    (p.invalid = true → truthy p.errorMessage = true →
      (renderInput p b).message = p.errorMessage) ∧
    ((p.invalid = false ∨ truthy p.errorMessage = false) → truthy p.helperText = true →
      (renderInput p b).message = p.helperText) ∧
    ((p.invalid = false ∨ truthy p.errorMessage = false) → truthy p.helperText = false →
      (renderInput p b).message = none) ∧
    (p.loading = true → (renderInput p b).disabledAttr = true) := by
  refine ⟨fun h1 h2 => ?_, fun h1 h2 => ?_, fun h1 h2 => ?_, fun h => ?_⟩
  · simp [renderInput, h1, h2]
  · rcases h1 with h1 | h1 <;> simp [renderInput, h1, h2]
  · rcases h1 with h1 | h1 <;> simp [renderInput, h1, h2]
  · simp [renderInput, h]

/-- Witness for C9: an invalid field with both texts shows the error message; a
valid one shows the helper text; a loading field is disabled even with the
disabled flag unset. -/
theorem message_precedence_witness :
    (renderInput ⟨"v", "text", false, true, false, some "help", some "bad"⟩ false).message
      = some "bad" ∧
    (renderInput ⟨"v", "text", false, false, false, some "help", some "bad"⟩ false).message
      = some "help" ∧
    (renderInput ⟨"v", "text", false, false, true, some "help", none⟩ false).disabledAttr
      = true := by
  refine ⟨?_, ?_, ?_⟩
  · exact (message_precedence ⟨"v", "text", false, true, false, some "help", some "bad"⟩
      false).1 rfl (by decide)
  · exact (message_precedence ⟨"v", "text", false, false, false, some "help", some "bad"⟩
      false).2.1 (Or.inl rfl) (by decide)
  · exact (message_precedence ⟨"v", "text", false, false, true, some "help", none⟩
      false).2.2.2 rfl
